import Mathlib

/-!
Shallow embedding of the sequential analysis queue controller of the
slideExplainer repository (src/components/SlideViewer.tsx together with the
client boundary in src/services/geminiService.ts), and proofs about it.

The stateful React component is embedded as explicit state passing:
* the slide store is a `List Slide`, mutated only by whole-copy updates
  (`updateSlide` models `[...slides]` followed by a single index assignment);
* the per-id in-flight guard `processingRef` is a `List String` used as a set;
* the priority queue is a `List String`;
* `triggerAnalysis` is split at its unique suspension point (the await of the
  Analysis Client) into `triggerStart` (the synchronous prefix up to and
  including issuing the client call) and `triggerFinish` (the resolution
  handler: success / catch branches plus the `finally` that releases the
  guard), so that overlapping invocations can be interleaved faithfully;
* the debounced auto-save keeps the single pending timer of `timerRef` as an
  `Option` slot holding the snapshot that would be written when it fires.
-/

namespace SlideExplainer

/-- Slide lifecycle status, from types.ts: 'IDLE' | 'LOADING' | 'SUCCESS' | 'ERROR'. -/
inductive SlideStatus where
  | IDLE
  | LOADING
  | SUCCESS
  | ERROR
deriving DecidableEq, Repr

/-- Attribution record written on success: { userId, userName, timestamp }. -/
structure AnalyzedBy where
  userId : String
  userName : String
  timestamp : Nat
deriving DecidableEq, Repr

/-- Slide record from types.ts (fields the controller reads or writes). -/
structure Slide where
  id : String
  pageNumber : Nat
  imageUrl : String
  explanation : Option String
  status : SlideStatus
  customPrompt : Option String
  analyzedBy : Option AnalyzedBy
deriving DecidableEq, Repr

/-- Current user, from types.ts User (fields the controller uses). -/
structure User where
  id : String
  name : String
deriving DecidableEq, Repr

/-- Token usage metadata returned by the Analysis Client. -/
structure Usage where
  totalTokenCount : Nat
deriving DecidableEq, Repr

/-- Outcome of one Analysis Client call (`analyzeSlideImage`): it resolves with
text and usage, or rejects. The rejection payload is discarded by the caller
(only logged), so it is not modelled. -/
inductive AnalysisResult where
  | ok (text : String) (usage : Usage)
  | err
deriving DecidableEq, Repr

/-- Default instruction string from triggerAnalysis line 162. -/
def defaultPrompt : String :=
  "Explain this slide in detail. Use bullet points and clear formatting."

/-- JavaScript `a || b` where `a` is an optional string: `undefined` and the
empty string are falsy and fall through to `b`. -/
def orElseJS : Option String → String → String
  | none, b => b
  | some a, b => if a = "" then b else a

/-- promptToUse from triggerAnalysis line 162:
`customPrompt || slide.customPrompt || default`. -/
def promptToUse (customPrompt : Option String) (slide : Slide) : String :=
  orElseJS customPrompt (orElseJS slide.customPrompt defaultPrompt)

/-- Boolean test `s.status === 'LOADING'`. -/
def statusIsLoading (s : Slide) : Bool :=
  match s.status with
  | .LOADING => true
  | _ => false

/-- `slides.some(s => s.status === 'LOADING')` from processQueue line 123. -/
def anyLoading (slides : List Slide) : Bool :=
  slides.any statusIsLoading

/-- Number of slides currently in LOADING state. -/
def countLoading (slides : List Slide) : Nat :=
  (slides.filter statusIsLoading).length

/-- Copy-and-assign array update: `const copy = [...slides]; copy[i] = f copy[i]`.
Out-of-range indices leave the list unchanged, as in JavaScript the code never
assigns out of range (the index always comes from a successful findIndex). -/
def updateSlide : List Slide → Nat → (Slide → Slide) → List Slide
  | [], _, _ => []
  | s :: rest, 0, f => f s :: rest
  | s :: rest, n + 1, f => s :: updateSlide rest n f

/-- `slides.findIndex(s => s.id === slideId)` paired with the found record;
`none` models the -1 result. -/
def findWithIdx (slideId : String) : List Slide → Option (Nat × Slide)
  | [] => none
  | s :: rest =>
    if s.id = slideId then some (0, s)
    else (findWithIdx slideId rest).map (fun p => (p.1 + 1, p.2))

/-- `slides.find(s => s.id === id)` from processQueue line 129. -/
def findSlide (slideId : String) (slides : List Slide) : Option Slide :=
  (findWithIdx slideId slides).map (fun p => p.2)

/-- Slide update applied by the optimistic LOADING transition (line 157). -/
def setLoadingSlide (s : Slide) : Slide :=
  { s with status := .LOADING }

/-- State reached by triggerAnalysis when it passes both early returns:
the store after the LOADING write, the guard set after `processingRef.add`,
the index of the target slide, and the argument pair of the Analysis Client
call that has just been issued. -/
structure Started where
  slides : List Slide
  processing : List String
  idx : Nat
  prompt : String
  imageUrl : String
deriving DecidableEq, Repr

/-- Result of the synchronous prefix of triggerAnalysis (lines 148-164). -/
inductive StartResult where
  | noSlide
  | guarded
  | started (st : Started)
deriving DecidableEq, Repr

/-- Synchronous prefix of triggerAnalysis (lines 148-164): bail out when the
slide is missing (findIndex = -1) or the per-id in-flight guard is set;
otherwise acquire the guard, write the LOADING status into a copy of the
store, and issue the Analysis Client call with the chosen prompt. -/
def triggerStart (slides : List Slide) (processing : List String)
    (slideId : String) (customPrompt : Option String) : StartResult :=
  match findWithIdx slideId slides with
  | none => .noSlide
  | some (i, s) =>
    if slideId ∈ processing then .guarded
    else
      .started
        { slides := updateSlide slides i setLoadingSlide
          processing := slideId :: processing
          idx := i
          prompt := promptToUse customPrompt (setLoadingSlide s)
          imageUrl := (setLoadingSlide s).imageUrl }

/-- Analysis Client call issued by one run of the synchronous prefix:
`some (imageUrl, prompt)` when the call reached the client, `none` when an
early return fired. -/
def clientCallOf : StartResult → Option (String × String)
  | .started st => some (st.imageUrl, st.prompt)
  | _ => none

/-- Slide update of the success branch (lines 167-179). -/
def successSlide (text prompt : String) (user : User) (now : Nat)
    (s : Slide) : Slide :=
  { s with
    explanation := some text
    status := .SUCCESS
    customPrompt := some prompt
    analyzedBy := some ⟨user.id, user.name, now⟩ }

/-- Slide update of the catch branch (line 186): only the status changes. -/
def errorSlide (s : Slide) : Slide :=
  { s with status := .ERROR }

/-- Outcome of the resolution half of triggerAnalysis: the store and guard set
afterwards, plus the token count reported to the usage tracker (fire-and-
forget, success branch only). -/
structure FinishOutcome where
  slides : List Slide
  processing : List String
  trackedTokens : Option Nat
deriving DecidableEq, Repr

/-- Resolution half of triggerAnalysis (lines 166-190): the success branch
writes the full success record and reports usage, the catch branch writes only
the ERROR status, and the `finally` releases the per-id guard on both paths.
It issues no further Analysis Client call and never re-queues anything. -/
def triggerFinish (slides : List Slide) (processing : List String) (i : Nat)
    (slideId prompt : String) (user : User) (now : Nat) :
    AnalysisResult → FinishOutcome
  | .ok text usage =>
    { slides := updateSlide slides i (successSlide text prompt user now)
      processing := processing.erase slideId
      trackedTokens := some usage.totalTokenCount }
  | .err =>
    { slides := updateSlide slides i errorSlide
      processing := processing.erase slideId
      trackedTokens := none }

/-- addToQueue (lines 212-217): append if absent; the function itself checks
only queue membership, not slide status. -/
def addToQueue (queue : List String) (slideId : String) : List String :=
  if slideId ∈ queue then queue else queue ++ [slideId]

/-- removeFromQueue (lines 219-221): `queue.filter(id => id !== slideId)`. -/
def removeFromQueue (queue : List String) (slideId : String) : List String :=
  queue.filter (fun id => id ≠ slideId)

/-- Clear Queue button (line 389): `setQueue([])`. -/
def clearQueue : List String := []

/-- Render guard of the sidebar enqueue button (line 287): the button exists
only when the slide is not SUCCESS, not LOADING, and not already queued. -/
def enqueueButtonVisible (slide : Slide) (queue : List String) : Bool :=
  decide (slide.status ≠ .SUCCESS) &&
  decide (slide.status ≠ .LOADING) &&
  decide (slide.id ∉ queue)

/-- User-reachable enqueue: clicking the button when it is rendered; when the
render guard hides the button, no call to addToQueue can happen. -/
def uiAddToQueue (slide : Slide) (queue : List String) : List String :=
  if enqueueButtonVisible slide queue then addToQueue queue slide.id else queue

/-- Fixed courtesy delay before an admitted queue head is analyzed
(processQueue line 136). -/
def analysisDelayMs : Nat := 1000

/-- Decision taken by one evaluation of the queue-admission effect. -/
inductive QueueAction where
  | idle
  | pop
  | trigger (delayMs : Nat) (id : String)
deriving DecidableEq, Repr

/-- processQueue (lines 120-146): do nothing while any slide is LOADING;
otherwise inspect the queue head: a missing or SUCCESS slide is popped, a
non-SUCCESS slide whose id is not in the in-flight guard is triggered after
the fixed delay, and a guarded head leaves the state alone. -/
def processQueue (slides : List Slide) (queue : List String)
    (processing : List String) : QueueAction :=
  if anyLoading slides then .idle
  else
    match queue with
    | [] => .idle
    | id :: _ =>
      match findSlide id slides with
      | some s =>
        if s.status ≠ .SUCCESS then
          if id ∈ processing then .idle else .trigger analysisDelayMs id
        else .pop
      | none => .pop

/-- Presentation metadata touched by the auto-save path (handleSave copies the
whole record and overwrites `slides` and `lastModified`). -/
structure Presentation where
  title : String
  slides : List Slide
  lastModified : Nat
deriving DecidableEq, Repr

/-- Component state driving the debounced auto-save: the in-memory
presentation, the single pending timer of `timerRef` together with the
snapshot it would write, and the isSaving flag. -/
structure SaveState where
  presentation : Presentation
  pendingWrite : Option Presentation
  isSaving : Bool
deriving DecidableEq, Repr

/-- Trailing-edge debounce delay of handleSave (line 79). -/
def saveDelayMs : Nat := 1000

/-- handleSave (lines 59-80): build the updated presentation, install it as
the in-memory state, cancel any pending timer (`clearTimeout`), and schedule a
write of exactly this snapshot after the delay. -/
def handleSave (st : SaveState) (updatedSlides : List Slide) (now : Nat) :
    SaveState :=
  let updated : Presentation :=
    { st.presentation with slides := updatedSlides, lastModified := now }
  { presentation := updated, pendingWrite := some updated, isSaving := true }

/-- Expiry of the debounce timer: the pending snapshot (if any) is handed to
`savePresentation` and the slot is cleared; `finally` resets isSaving. -/
def timerFire (st : SaveState) : SaveState × Option Presentation :=
  match st.pendingWrite with
  | some p => ({ st with pendingWrite := none, isSaving := false }, some p)
  | none => (st, none)

/-- Burst of slide-array mutations, each arriving before the pending timer
fires: every mutation goes through handleSave, so each one resets the timer. -/
def applyBurst (st : SaveState) (muts : List (List Slide × Nat)) : SaveState :=
  muts.foldl (fun s m => handleSave s m.1 m.2) st

/-- Combined controller state for the admission-level step system. -/
structure CtrlState where
  slides : List Slide
  queue : List String
  processing : List String
deriving DecidableEq, Repr

/-- Steps of the controller restricted to queue management, queue admission
and resolution of in-flight calls. Admission fires triggerAnalysis with no
prompt override (processQueue line 137); a resolution step may apply the
success or catch branch of any in-flight call. Manual triggerAnalysis calls
(retry button, regenerate) are deliberately not steps of this relation. -/
inductive QStep : CtrlState → CtrlState → Prop
  | enqueue (st : CtrlState) (id : String) :
      QStep st { st with queue := addToQueue st.queue id }
  | dequeue (st : CtrlState) (id : String) :
      QStep st { st with queue := removeFromQueue st.queue id }
  | clear (st : CtrlState) :
      QStep st { st with queue := clearQueue }
  | admitPop (st : CtrlState) :
      processQueue st.slides st.queue st.processing = .pop →
      QStep st { st with queue := st.queue.tail }
  | admitTrigger (st : CtrlState) (d : Nat) (id : String) (s1 : Started) :
      processQueue st.slides st.queue st.processing = .trigger d id →
      triggerStart st.slides st.processing id none = .started s1 →
      QStep st { slides := s1.slides, queue := st.queue,
                 processing := s1.processing }
  | finish (st : CtrlState) (i : Nat) (id prompt : String) (user : User)
      (now : Nat) (res : AnalysisResult) :
      id ∈ st.processing →
      QStep st
        { slides :=
            (triggerFinish st.slides st.processing i id prompt user now
              res).slides
          queue := st.queue
          processing :=
            (triggerFinish st.slides st.processing i id prompt user now
              res).processing }

/-- Reachability by queue-admission steps. -/
def QReach : CtrlState → CtrlState → Prop :=
  Relation.ReflTransGen QStep

/-- User-level queue operations on the transient priority queue. -/
inductive QueueOp where
  | enqueue (id : String)
  | dequeue (id : String)
  | clear
deriving DecidableEq, Repr

/-- Effect of one queue operation on the queue state. -/
def applyQueueOp (q : List String) : QueueOp → List String
  | .enqueue id => addToQueue q id
  | .dequeue id => removeFromQueue q id
  | .clear => clearQueue

/-- Status written by the resolution half for each client outcome. -/
def statusOfResult : AnalysisResult → SlideStatus
  | .ok _ _ => .SUCCESS
  | .err => .ERROR

/-- Store produced by the synchronous prefix, when it ran to the client call. -/
def startedSlides : StartResult → Option (List Slide)
  | .started st => some st.slides
  | _ => none

/-- Fresh slide record as produced at ingestion, with a chosen status. -/
def mkSlide (id : String) (n : Nat) (st : SlideStatus) : Slide :=
  { id := id, pageNumber := n, imageUrl := "", explanation := none,
    status := st, customPrompt := none, analyzedBy := none }

/-- Fixture: a slide whose analysis call is currently in flight. -/
def loadingSlideA : Slide := mkSlide "a" 1 .LOADING

/-- Fixture: an idle slide next to the loading one. -/
def idleSlideB : Slide := mkSlide "b" 2 .IDLE

/-- Fixture: an already analyzed slide, used against the enqueue claim. -/
def analyzedFixture : Slide := mkSlide "s1" 1 .SUCCESS

/-- Fixture: a previously analyzed slide carrying an explanation and a custom
prompt, used for the failed-regenerate frame property. -/
def regenSlide : Slide :=
  { id := "r1", pageNumber := 1, imageUrl := "u", explanation := some "old",
    status := .SUCCESS, customPrompt := some "p", analyzedBy := none }

/-- Fixture: initial controller state for the single-flight witness trace. -/
def w1State0 : CtrlState :=
  { slides := [mkSlide "q1" 1 .IDLE], queue := ["q1"], processing := [] }

/-- Fixture: data of the admitted client call in the witness trace. -/
def w1Started : Started :=
  { slides := updateSlide [mkSlide "q1" 1 .IDLE] 0 setLoadingSlide
    processing := ["q1"]
    idx := 0
    prompt := promptToUse none (setLoadingSlide (mkSlide "q1" 1 .IDLE))
    imageUrl := (setLoadingSlide (mkSlide "q1" 1 .IDLE)).imageUrl }

/-- Fixture: controller state after the admitted LOADING transition. -/
def w1State1 : CtrlState :=
  { slides := w1Started.slides, queue := w1State0.queue,
    processing := w1Started.processing }

/-! Helper lemmas about the embedded operations. -/

theorem countLoading_nil : countLoading [] = 0 := rfl

theorem countLoading_cons (s : Slide) (l : List Slide) :
    countLoading (s :: l) =
      (if statusIsLoading s then 1 else 0) + countLoading l := by
  by_cases h : statusIsLoading s
  · simp [countLoading, List.filter_cons, h, Nat.add_comm]
  · simp [countLoading, List.filter_cons, h]

theorem countLoading_updateSlide_le (l : List Slide) (i : Nat)
    (f : Slide → Slide) :
    countLoading (updateSlide l i f) ≤ countLoading l + 1 := by
  induction l generalizing i with
  | nil => simp [updateSlide, countLoading]
  | cons s rest ih =>
    cases i with
    | zero =>
      simp only [updateSlide, countLoading_cons]
      split <;> split <;> omega
    | succ n =>
      simp only [updateSlide, countLoading_cons]
      have := ih n
      split <;> omega

theorem countLoading_updateSlide_of_notLoading (l : List Slide) (i : Nat)
    (f : Slide → Slide) (hf : ∀ s, statusIsLoading (f s) = false) :
    countLoading (updateSlide l i f) ≤ countLoading l := by
  induction l generalizing i with
  | nil => simp [updateSlide]
  | cons s rest ih =>
    cases i with
    | zero =>
      simp [updateSlide, countLoading_cons, hf s]
    | succ n =>
      simp only [updateSlide, countLoading_cons]
      have := ih n
      split <;> omega

theorem countLoading_eq_zero_of_anyLoading (l : List Slide)
    (h : anyLoading l = false) : countLoading l = 0 := by
  induction l with
  | nil => rfl
  | cons s rest ih =>
    simp only [anyLoading, List.any_cons, Bool.or_eq_false_iff] at h
    have h2 : anyLoading rest = false := h.2
    simp [countLoading_cons, h.1, ih h2]

theorem statusIsLoading_successSlide (text prompt : String) (user : User)
    (now : Nat) (s : Slide) :
    statusIsLoading (successSlide text prompt user now s) = false := rfl

theorem statusIsLoading_errorSlide (s : Slide) :
    statusIsLoading (errorSlide s) = false := rfl

theorem getElem?_updateSlide (l : List Slide) (i j : Nat) (f : Slide → Slide) :
    (updateSlide l i f)[j]? = if j = i then (l[i]?).map f else l[j]? := by
  induction l generalizing i j with
  | nil => simp [updateSlide]
  | cons s rest ih =>
    cases i with
    | zero =>
      cases j with
      | zero => simp [updateSlide]
      | succ m => simp [updateSlide]
    | succ n =>
      cases j with
      | zero => simp [updateSlide]
      | succ m => simpa [updateSlide] using ih n m

theorem findWithIdx_eq_some (slideId : String) (l : List Slide) (i : Nat)
    (s : Slide) (h : findWithIdx slideId l = some (i, s)) :
    l[i]? = some s ∧ s.id = slideId := by
  induction l generalizing i with
  | nil => simp [findWithIdx] at h
  | cons t rest ih =>
    by_cases ht : t.id = slideId
    · rw [findWithIdx, if_pos ht] at h
      have h' : ((0, t) : Nat × Slide) = (i, s) := Option.some.inj h
      have hi : (0 : Nat) = i := congrArg Prod.fst h'
      have hs : t = s := congrArg Prod.snd h'
      subst hi
      subst hs
      exact ⟨by simp, ht⟩
    · rw [findWithIdx, if_neg ht] at h
      obtain ⟨⟨i', s'⟩, hfind, heq⟩ := Option.map_eq_some'.mp h
      have hi : i' + 1 = i := congrArg Prod.fst heq
      have hs : s' = s := congrArg Prod.snd heq
      subst hs
      subst hi
      obtain ⟨hrest, hid⟩ := ih i' hfind
      exact ⟨by simpa using hrest, hid⟩

theorem findWithIdx_updateSlide (slideId : String) (l : List Slide) (i : Nat)
    (s : Slide) (f : Slide → Slide) (hface : ∀ t, (f t).id = t.id)
    (h : findWithIdx slideId l = some (i, s)) :
    findWithIdx slideId (updateSlide l i f) = some (i, f s) := by
  induction l generalizing i with
  | nil => simp [findWithIdx] at h
  | cons t rest ih =>
    by_cases ht : t.id = slideId
    · rw [findWithIdx, if_pos ht] at h
      have h' : ((0, t) : Nat × Slide) = (i, s) := Option.some.inj h
      have hi : (0 : Nat) = i := congrArg Prod.fst h'
      have hs : t = s := congrArg Prod.snd h'
      subst hi
      subst hs
      have : (f t).id = slideId := by rw [hface t]; exact ht
      simp [updateSlide, findWithIdx, this]
    · rw [findWithIdx, if_neg ht] at h
      obtain ⟨⟨i', s'⟩, hfind, heq⟩ := Option.map_eq_some'.mp h
      have hi : i' + 1 = i := congrArg Prod.fst heq
      have hs : s' = s := congrArg Prod.snd heq
      subst hs
      subst hi
      simp only [updateSlide, findWithIdx, if_neg ht]
      rw [ih i' hfind]
      rfl

theorem triggerStart_started_inv (slides : List Slide)
    (processing : List String) (slideId : String) (o : Option String)
    (s1 : Started)
    (h : triggerStart slides processing slideId o = .started s1) :
    ∃ i s0, findWithIdx slideId slides = some (i, s0) ∧
      slideId ∉ processing ∧
      s1 = { slides := updateSlide slides i setLoadingSlide,
             processing := slideId :: processing, idx := i,
             prompt := promptToUse o (setLoadingSlide s0),
             imageUrl := (setLoadingSlide s0).imageUrl } := by
  unfold triggerStart at h
  split at h
  · exact absurd h (by simp)
  · rename_i i s0 hf
    split at h
    · exact absurd h (by simp)
    · rename_i hp
      injection h with h1
      exact ⟨i, s0, hf, hp, h1.symm⟩

theorem processQueue_trigger_inv (slides : List Slide)
    (queue processing : List String) (d : Nat) (id : String)
    (h : processQueue slides queue processing = .trigger d id) :
    anyLoading slides = false ∧ queue.head? = some id ∧
      d = analysisDelayMs ∧
      ∃ s, findSlide id slides = some s ∧ s.status ≠ .SUCCESS ∧
        id ∉ processing := by
  unfold processQueue at h
  split at h
  · exact absurd h (by simp)
  · rename_i ha
    split at h
    · exact absurd h (by simp)
    · rename_i id0 rest
      split at h
      · rename_i s hs
        split at h
        · split at h
          · exact absurd h (by simp)
          · rename_i hsucc hp
            injection h with hd hid
            subst hid
            refine ⟨by simpa using ha, rfl, hd.symm, s, hs, hsucc, hp⟩
        · exact absurd h (by simp)
      · exact absurd h (by simp)

theorem nodup_addToQueue (q : List String) (id : String) (h : q.Nodup) :
    (addToQueue q id).Nodup := by
  by_cases hmem : id ∈ q
  · simpa [addToQueue, hmem] using h
  · simp only [addToQueue, if_neg hmem]
    refine List.Nodup.append h (List.nodup_singleton id) ?_
    intro a ha hb
    simp only [List.mem_singleton] at hb
    subst hb
    exact hmem ha

theorem nodup_removeFromQueue (q : List String) (id : String) (h : q.Nodup) :
    (removeFromQueue q id).Nodup :=
  h.filter _

theorem foldl_applyQueueOp_nodup (ops : List QueueOp) (q : List String)
    (hq : q.Nodup) : (ops.foldl applyQueueOp q).Nodup := by
  induction ops generalizing q with
  | nil => exact hq
  | cons op rest ih =>
    cases op with
    | enqueue id => exact ih _ (nodup_addToQueue q id hq)
    | dequeue id => exact ih _ (nodup_removeFromQueue q id hq)
    | clear => exact ih _ List.nodup_nil

/-! Claim theorems. -/

/-- C8: for every sequence of enqueue and dequeue operations starting from the
empty queue, the queue never contains two entries with the same slide id. The
queue state after any such sequence of addToQueue / removeFromQueue / clear
calls has no duplicates. -/
theorem C8_queue_never_has_duplicates (ops : List QueueOp) :
    (ops.foldl applyQueueOp []).Nodup :=
  foldl_applyQueueOp_nodup ops [] (by simp)

/-- C2 counterexample: the claim says enqueue is a no-op for a slide whose
status is SUCCESS, but addToQueue checks only queue membership; an analyzed
slide that is absent from the queue is appended all the same. -/
theorem C2_counterexample :
    analyzedFixture.status = SlideStatus.SUCCESS ∧
    addToQueue [] analyzedFixture.id = ["s1"] ∧
    addToQueue [] analyzedFixture.id ≠ [] := by
  refine ⟨rfl, rfl, ?_⟩
  decide

/-- C2 amended: addToQueue appends slideId exactly when it is absent from the
queue, regardless of the slide's status, and is a no-op when present; it only
returns a queue, never starting an analysis. The not-SUCCESS restriction is
enforced one level up, by the sidebar render guard that shows the enqueue
button only for slides that are neither SUCCESS nor LOADING nor already
queued, so the user-reachable enqueue is a no-op on a SUCCESS slide. -/
theorem C2_amended_enqueue (slide : Slide) (queue : List String) :
    (slide.id ∈ queue → uiAddToQueue slide queue = queue) ∧
    (slide.status = .SUCCESS → uiAddToQueue slide queue = queue) ∧
    (slide.status ≠ .SUCCESS → slide.status ≠ .LOADING →
      slide.id ∉ queue → uiAddToQueue slide queue = queue ++ [slide.id]) ∧
    (∀ id, id ∈ queue → addToQueue queue id = queue) ∧
    (∀ id, id ∉ queue → addToQueue queue id = queue ++ [id]) := by
  refine ⟨?_, ?_, ?_, ?_, ?_⟩
  · intro hmem
    have hv : enqueueButtonVisible slide queue = false := by
      simp [enqueueButtonVisible, hmem]
    simp [uiAddToQueue, hv]
  · intro hsucc
    have hv : enqueueButtonVisible slide queue = false := by
      simp [enqueueButtonVisible, hsucc]
    simp [uiAddToQueue, hv]
  · intro h1 h2 h3
    have hv : enqueueButtonVisible slide queue = true := by
      simp [enqueueButtonVisible, h1, h2, h3]
    simp [uiAddToQueue, hv, addToQueue, h3]
  · intro id hmem
    simp [addToQueue, hmem]
  · intro id hmem
    simp [addToQueue, hmem]

/-- C2 amended, witness: an IDLE slide absent from the empty queue is
appended; enqueueing it again is a no-op. -/
theorem C2_amended_enqueue_witness :
    uiAddToQueue (mkSlide "s2" 2 .IDLE) [] = ["s2"] ∧
    addToQueue ["s2"] "s2" = ["s2"] := by
  constructor
  · have h :=
      (C2_amended_enqueue (mkSlide "s2" 2 .IDLE) []).2.2.1
        (by decide) (by decide) (by decide)
    simpa using h
  · have h := (C2_amended_enqueue (mkSlide "s2" 2 .IDLE) ["s2"]).2.2.2.1
    simpa using h "s2" (by decide)

/-- C10: calling triggerAnalysis with the empty string as the prompt override
behaves exactly like calling it with no override, because `||` treats the
empty string as falsy: the whole synchronous prefix (and hence the prompt sent
to the Analysis Client and later persisted as customPrompt) is identical, and
the prompt that is used is the slide's stored customPrompt when that is
non-empty, else the default instruction string. -/
theorem C10_empty_override (slides : List Slide) (processing : List String)
    (slideId : String) :
    triggerStart slides processing slideId (some "") =
      triggerStart slides processing slideId none ∧
    (∀ s : Slide, promptToUse (some "") s = promptToUse none s) ∧
    (∀ (s : Slide) (c : String), s.customPrompt = some c → c ≠ "" →
      promptToUse (some "") s = c) ∧
    (∀ s : Slide, s.customPrompt = none ∨ s.customPrompt = some "" →
      promptToUse (some "") s = defaultPrompt) := by
  refine ⟨?_, ?_, ?_, ?_⟩
  · unfold triggerStart
    cases hf : findWithIdx slideId slides with
    | none => rfl
    | some p =>
      obtain ⟨i, s⟩ := p
      by_cases hp : slideId ∈ processing
      · simp [hp]
      · simp [hp, promptToUse, orElseJS]
  · intro s
    simp [promptToUse, orElseJS]
  · intro s c hc hne
    simp [promptToUse, orElseJS, hc, hne]
  · intro s hcp
    rcases hcp with h | h <;> simp [promptToUse, orElseJS, h]

/-- C10 witness: on a slide with stored custom prompt "mine", an empty-string
override yields the prompt "mine", the same as no override. -/
theorem C10_empty_override_witness :
    promptToUse (some "")
      { analyzedFixture with customPrompt := some "mine" } = "mine" ∧
    promptToUse (some "")
      { analyzedFixture with customPrompt := some "mine" } =
      promptToUse none { analyzedFixture with customPrompt := some "mine" } := by
  constructor
  · exact (C10_empty_override [] [] "x").2.2.1
      { analyzedFixture with customPrompt := some "mine" } "mine"
      rfl (by decide)
  · exact (C10_empty_override [] [] "x").2.1
      { analyzedFixture with customPrompt := some "mine" }

/-- C4: when triggerAnalysis(id) is invoked again before the first invocation
for the same id resolves, the first invocation is the only one that reaches
the Analysis Client (the overlapping second invocation hits the per-id
in-flight guard and is a no-op issuing no client call), and the guard for id
is released by the resolution half on both exit paths, success and failure
alike. -/
theorem C4_single_client_call_per_overlap (slides : List Slide)
    (processing : List String) (slideId : String) (o1 o2 : Option String)
    (user : User) (now : Nat) (i : Nat) (s0 : Slide) (res : AnalysisResult)
    (hf : findWithIdx slideId slides = some (i, s0))
    (hp : slideId ∉ processing) :
    triggerStart slides processing slideId o1 =
      .started { slides := updateSlide slides i setLoadingSlide,
                 processing := slideId :: processing, idx := i,
                 prompt := promptToUse o1 (setLoadingSlide s0),
                 imageUrl := (setLoadingSlide s0).imageUrl } ∧
    triggerStart (updateSlide slides i setLoadingSlide)
      (slideId :: processing) slideId o2 = .guarded ∧
    clientCallOf (triggerStart (updateSlide slides i setLoadingSlide)
      (slideId :: processing) slideId o2) = none ∧
    (triggerFinish (updateSlide slides i setLoadingSlide)
        (slideId :: processing) i slideId
        (promptToUse o1 (setLoadingSlide s0)) user now res).processing =
      processing ∧
    slideId ∉ (triggerFinish (updateSlide slides i setLoadingSlide)
        (slideId :: processing) i slideId
        (promptToUse o1 (setLoadingSlide s0)) user now res).processing := by
  have hstart : triggerStart slides processing slideId o1 =
      .started { slides := updateSlide slides i setLoadingSlide,
                 processing := slideId :: processing, idx := i,
                 prompt := promptToUse o1 (setLoadingSlide s0),
                 imageUrl := (setLoadingSlide s0).imageUrl } := by
    unfold triggerStart
    simp only [hf]
    rw [if_neg hp]
  have hfind2 : findWithIdx slideId (updateSlide slides i setLoadingSlide) =
      some (i, setLoadingSlide s0) :=
    findWithIdx_updateSlide slideId slides i s0 setLoadingSlide
      (fun _ => rfl) hf
  have hguard : triggerStart (updateSlide slides i setLoadingSlide)
      (slideId :: processing) slideId o2 = .guarded := by
    unfold triggerStart
    simp only [hfind2]
    rw [if_pos (List.mem_cons_self _ _)]
  have herase : (slideId :: processing).erase slideId = processing :=
    List.erase_cons_head ..
  refine ⟨hstart, hguard, by rw [hguard]; rfl, ?_, ?_⟩
  · cases res <;> simp [triggerFinish, herase]
  · cases res <;> simp [triggerFinish, herase, hp]

/-- C4 witness: concrete overlap on a one-slide store; the second invocation
is guarded and the guard is released after the failing resolution. -/
theorem C4_single_client_call_per_overlap_witness :
    triggerStart (updateSlide [mkSlide "w4" 1 .IDLE] 0 setLoadingSlide)
      ["w4"] "w4" none = .guarded ∧
    "w4" ∉ (triggerFinish (updateSlide [mkSlide "w4" 1 .IDLE] 0 setLoadingSlide)
      ["w4"] 0 "w4" (promptToUse none (setLoadingSlide (mkSlide "w4" 1 .IDLE)))
      ⟨"u", "n"⟩ 0 .err).processing := by
  have h := C4_single_client_call_per_overlap [mkSlide "w4" 1 .IDLE] []
    "w4" none none ⟨"u", "n"⟩ 0 0 (mkSlide "w4" 1 .IDLE) .err
    (by decide) (by decide)
  exact ⟨h.2.1, h.2.2.2.2⟩

/-- C9: when the Analysis Client call fails, the resulting ERROR transition
changes only the status field of the analyzed slide — its explanation,
customPrompt, analyzedBy, id, pageNumber and imageUrl keep their prior
values — and every other slide in the store is unchanged; in particular a
failed regenerate of a previously SUCCESS slide retains its old explanation. -/
theorem C9_error_transition_frame (slides : List Slide)
    (processing : List String) (slideId : String) (o : Option String)
    (user : User) (now : Nat) (i : Nat) (s0 : Slide)
    (hf : findWithIdx slideId slides = some (i, s0))
    (_hp : slideId ∉ processing) :
    (∀ j, j ≠ i →
      ((triggerFinish (updateSlide slides i setLoadingSlide)
          (slideId :: processing) i slideId
          (promptToUse o (setLoadingSlide s0)) user now .err).slides)[j]? =
        slides[j]?) ∧
    ((triggerFinish (updateSlide slides i setLoadingSlide)
        (slideId :: processing) i slideId
        (promptToUse o (setLoadingSlide s0)) user now .err).slides)[i]? =
      some { s0 with status := .ERROR } := by
  have hget : slides[i]? = some s0 := (findWithIdx_eq_some _ _ _ _ hf).1
  constructor
  · intro j hj
    simp [triggerFinish, getElem?_updateSlide, hj]
  · simp [triggerFinish, getElem?_updateSlide, hget, errorSlide,
      setLoadingSlide]

/-- C9 witness: a failed regenerate of the SUCCESS slide "r1" leaves its old
explanation in place, only flipping the status to ERROR, and leaves the
neighbouring slide untouched. -/
theorem C9_error_transition_frame_witness :
    ((triggerFinish (updateSlide [regenSlide, mkSlide "r2" 2 .IDLE] 0
        setLoadingSlide) ["r1"] 0 "r1"
        (promptToUse none (setLoadingSlide regenSlide)) ⟨"u", "n"⟩ 5
        .err).slides)[0]? = some { regenSlide with status := .ERROR } ∧
    ((triggerFinish (updateSlide [regenSlide, mkSlide "r2" 2 .IDLE] 0
        setLoadingSlide) ["r1"] 0 "r1"
        (promptToUse none (setLoadingSlide regenSlide)) ⟨"u", "n"⟩ 5
        .err).slides)[1]? = some (mkSlide "r2" 2 .IDLE) := by
  have h := C9_error_transition_frame [regenSlide, mkSlide "r2" 2 .IDLE] []
    "r1" none ⟨"u", "n"⟩ 5 0 regenSlide (by decide) (by decide)
  exact ⟨h.2, h.1 1 (by decide)⟩

/-- C6: a successful analysis writes status SUCCESS, the returned text as
explanation, the prompt actually used as customPrompt, and the current user's
attribution as analyzedBy; the prompt used is the caller's override when one
with non-empty text was supplied, else the slide's stored non-empty
customPrompt, else the default instruction string, so a slide analyzed with a
custom prompt echoes back exactly that prompt. -/
theorem C6_success_record (slides : List Slide) (processing : List String)
    (slideId : String) (o : Option String) (user : User) (now : Nat)
    (text : String) (usage : Usage) (i : Nat) (s0 : Slide)
    (hf : findWithIdx slideId slides = some (i, s0))
    (_hp : slideId ∉ processing) :
    ((triggerFinish (updateSlide slides i setLoadingSlide)
        (slideId :: processing) i slideId
        (promptToUse o (setLoadingSlide s0)) user now
        (.ok text usage)).slides)[i]? =
      some { s0 with
              explanation := some text
              status := .SUCCESS
              customPrompt := some (promptToUse o s0)
              analyzedBy := some ⟨user.id, user.name, now⟩ } ∧
    promptToUse o (setLoadingSlide s0) = promptToUse o s0 ∧
    (∀ p, o = some p → p ≠ "" → promptToUse o s0 = p) ∧
    (o = none ∨ o = some "" → ∀ c, s0.customPrompt = some c → c ≠ "" →
      promptToUse o s0 = c) ∧
    (o = none ∨ o = some "" →
      s0.customPrompt = none ∨ s0.customPrompt = some "" →
      promptToUse o s0 = defaultPrompt) := by
  have hget : slides[i]? = some s0 := (findWithIdx_eq_some _ _ _ _ hf).1
  refine ⟨?_, rfl, ?_, ?_, ?_⟩
  · simp only [triggerFinish, getElem?_updateSlide, if_pos rfl, hget,
      Option.map_some]
    rfl
  · intro p hop hne
    simp [promptToUse, orElseJS, hop, hne]
  · intro ho c hc hne
    rcases ho with h | h <;> simp [promptToUse, orElseJS, h, hc, hne]
  · intro ho hcp
    rcases ho with h | h <;> rcases hcp with h' | h' <;>
      simp [promptToUse, orElseJS, h, h']

/-- C6 witness: analyzing the one-slide store with the override "Focus on the
graph" records exactly that prompt, the returned text, SUCCESS, and the
user's attribution. -/
theorem C6_success_record_witness :
    ((triggerFinish (updateSlide [mkSlide "w6" 1 .IDLE] 0 setLoadingSlide)
        ["w6"] 0 "w6"
        (promptToUse (some "Focus on the graph")
          (setLoadingSlide (mkSlide "w6" 1 .IDLE))) ⟨"u", "n"⟩ 7
        (.ok "result text" ⟨42⟩)).slides)[0]? =
      some { mkSlide "w6" 1 .IDLE with
              explanation := some "result text"
              status := .SUCCESS
              customPrompt := some "Focus on the graph"
              analyzedBy := some ⟨"u", "n", 7⟩ } := by
  have h := C6_success_record [mkSlide "w6" 1 .IDLE] [] "w6"
    (some "Focus on the graph") ⟨"u", "n"⟩ 7 "result text" ⟨42⟩ 0
    (mkSlide "w6" 1 .IDLE) (by decide) (by decide)
  have hpr : promptToUse (some "Focus on the graph") (mkSlide "w6" 1 .IDLE) =
      "Focus on the graph" :=
    h.2.2.1 "Focus on the graph" rfl (by decide)
  rw [h.1, hpr]

/-- C3 counterexample: the claim says a client resolution with empty text
marks the slide ERROR, but the code has no empty-text check: the success
branch runs and the slide reaches SUCCESS with an empty explanation. -/
theorem C3_counterexample :
    (((triggerFinish (updateSlide [mkSlide "e1" 1 .IDLE] 0 setLoadingSlide)
        ["e1"] 0 "e1" defaultPrompt ⟨"u", "n"⟩ 0
        (.ok "" ⟨0⟩)).slides)[0]?).map Slide.status =
      some SlideStatus.SUCCESS ∧
    (((triggerFinish (updateSlide [mkSlide "e1" 1 .IDLE] 0 setLoadingSlide)
        ["e1"] 0 "e1" defaultPrompt ⟨"u", "n"⟩ 0
        (.ok "" ⟨0⟩)).slides)[0]?).map Slide.explanation = some (some "") ∧
    SlideStatus.SUCCESS ≠ SlideStatus.ERROR := by
  refine ⟨rfl, rfl, by decide⟩

/-- C3 amended: a slide transitions from LOADING to ERROR exactly when the
Analysis Client rejects; a resolution with empty explanation text is treated
like any other success and yields SUCCESS with the empty string recorded as
the explanation. Neither path performs an automatic retry: the resolution
only writes the store and releases the in-flight guard. -/
theorem C3_amended_error_transition (slides : List Slide)
    (processing : List String) (slideId : String) (o : Option String)
    (user : User) (now : Nat) (i : Nat) (s0 : Slide) (res : AnalysisResult)
    (hf : findWithIdx slideId slides = some (i, s0))
    (_hp : slideId ∉ processing) :
    (((triggerFinish (updateSlide slides i setLoadingSlide)
        (slideId :: processing) i slideId
        (promptToUse o (setLoadingSlide s0)) user now res).slides)[i]?).map
      Slide.status = some (statusOfResult res) ∧
    (∀ usage,
      (((triggerFinish (updateSlide slides i setLoadingSlide)
          (slideId :: processing) i slideId
          (promptToUse o (setLoadingSlide s0)) user now
          (.ok "" usage)).slides)[i]?).map Slide.explanation =
        some (some "")) ∧
    (triggerFinish (updateSlide slides i setLoadingSlide)
        (slideId :: processing) i slideId
        (promptToUse o (setLoadingSlide s0)) user now res).processing =
      processing := by
  have hget : slides[i]? = some s0 := (findWithIdx_eq_some _ _ _ _ hf).1
  have herase : (slideId :: processing).erase slideId = processing :=
    List.erase_cons_head ..
  refine ⟨?_, ?_, ?_⟩
  · cases res with
    | ok text usage =>
      simp [triggerFinish, getElem?_updateSlide, hget, successSlide,
        statusOfResult]
    | err =>
      simp [triggerFinish, getElem?_updateSlide, hget, errorSlide,
        statusOfResult]
  · intro usage
    simp [triggerFinish, getElem?_updateSlide, hget, successSlide]
  · cases res <;> simp [triggerFinish, herase]

/-- C3 amended, witness: a rejected call on the one-slide store yields ERROR
and releases the guard. -/
theorem C3_amended_error_transition_witness :
    (((triggerFinish (updateSlide [mkSlide "e2" 1 .IDLE] 0 setLoadingSlide)
        ["e2"] 0 "e2" (promptToUse none (setLoadingSlide (mkSlide "e2" 1 .IDLE)))
        ⟨"u", "n"⟩ 0 .err).slides)[0]?).map Slide.status =
      some SlideStatus.ERROR ∧
    (triggerFinish (updateSlide [mkSlide "e2" 1 .IDLE] 0 setLoadingSlide)
        ["e2"] 0 "e2" (promptToUse none (setLoadingSlide (mkSlide "e2" 1 .IDLE)))
        ⟨"u", "n"⟩ 0 .err).processing = [] := by
  have h := C3_amended_error_transition [mkSlide "e2" 1 .IDLE] [] "e2" none
    ⟨"u", "n"⟩ 0 0 (mkSlide "e2" 1 .IDLE) .err (by decide) (by decide)
  exact ⟨h.1, h.2.2⟩

theorem qstep_preserves_atMostOneLoading (s s' : CtrlState) (h : QStep s s')
    (hinv : countLoading s.slides ≤ 1) : countLoading s'.slides ≤ 1 := by
  cases h with
  | enqueue id => exact hinv
  | dequeue id => exact hinv
  | clear => exact hinv
  | admitPop hpq => exact hinv
  | admitTrigger d id s1 hpq hstart =>
    obtain ⟨hload, -, -, -⟩ := processQueue_trigger_inv _ _ _ _ _ hpq
    obtain ⟨i, s0, hf, hpmem, hs1⟩ :=
      triggerStart_started_inv _ _ _ _ _ hstart
    have h0 : countLoading s.slides = 0 :=
      countLoading_eq_zero_of_anyLoading _ hload
    subst hs1
    have hle := countLoading_updateSlide_le s.slides i setLoadingSlide
    simpa [h0] using hle
  | finish i id prompt user now res hmem =>
    cases res with
    | ok text usage =>
      have hle := countLoading_updateSlide_of_notLoading s.slides i
        (successSlide text prompt user now) (fun _ => rfl)
      simp only [triggerFinish]
      omega
    | err =>
      have hle := countLoading_updateSlide_of_notLoading s.slides i
        errorSlide (fun _ => rfl)
      simp only [triggerFinish]
      omega

/-- C1 counterexample: the claim says every transition into LOADING is allowed
only when no other slide is LOADING, including manual triggerAnalysis / retry
/ regenerate calls; but triggerAnalysis checks only the per-id guard, so with
slide "a" mid-flight (LOADING, guard held) a manual trigger on slide "b"
passes the guard and leaves two slides LOADING at once. -/
theorem C1_counterexample :
    countLoading [loadingSlideA, idleSlideB] = 1 ∧
    (startedSlides
      (triggerStart [loadingSlideA, idleSlideB] ["a"] "b" none)).map
        countLoading = some 2 := by
  refine ⟨rfl, rfl⟩

/-- C1 amended: the store-wide single-flight invariant holds for every
sequence of queue operations, queue-admission steps and in-flight resolutions
(QStep): starting from any state with at most one LOADING slide, every
reachable state has at most one LOADING slide, because admission refuses to
trigger while any slide is LOADING. Manual triggerAnalysis / retry /
regenerate calls are not covered: they check only the per-id in-flight guard
and can create a second LOADING slide (see the counterexample). -/
theorem C1_amended_single_flight (s s' : CtrlState) (h : QReach s s')
    (hinv : countLoading s.slides ≤ 1) : countLoading s'.slides ≤ 1 := by
  induction h with
  | refl => exact hinv
  | tail hsteps hstep ih =>
    exact qstep_preserves_atMostOneLoading _ _ hstep ih

/-- C1 amended, witness: a concrete one-step admission trace from an all-IDLE
one-slide state with the slide queued; the reached state has one LOADING
slide. -/
theorem C1_amended_single_flight_witness :
    countLoading w1State1.slides ≤ 1 := by
  have hstep : QStep w1State0 w1State1 :=
    QStep.admitTrigger w1State0 analysisDelayMs "q1" w1Started
      (by decide) (by decide)
  exact C1_amended_single_flight w1State0 w1State1
    (Relation.ReflTransGen.single hstep) (by decide)

/-- C5: queue admission does nothing while any slide is LOADING; with no slide
LOADING it pops a queue head that is missing from the store or already
SUCCESS without analyzing, and triggers analysis, after the fixed 1000 ms
courtesy delay, on a head that exists, is not SUCCESS and is not in-flight —
hence only the queue head (FIFO insertion order) is ever triggered, an ERROR
slide left at the head is retried on the next admission cycle (it is not
SUCCESS), and a slide that was never enqueued is never auto-analyzed. -/
theorem C5_queue_admission (slides : List Slide)
    (queue processing : List String) :
    (anyLoading slides = true →
      processQueue slides queue processing = .idle) ∧
    (processQueue slides [] processing = .idle) ∧
    (∀ id rest, anyLoading slides = false → queue = id :: rest →
      findSlide id slides = none →
      processQueue slides queue processing = .pop) ∧
    (∀ id rest s, anyLoading slides = false → queue = id :: rest →
      findSlide id slides = some s → s.status = .SUCCESS →
      processQueue slides queue processing = .pop) ∧
    (∀ id rest s, anyLoading slides = false → queue = id :: rest →
      findSlide id slides = some s → s.status ≠ .SUCCESS →
      id ∉ processing →
      processQueue slides queue processing = .trigger 1000 id) ∧
    (∀ d id, processQueue slides queue processing = .trigger d id →
      queue.head? = some id ∧ d = 1000) ∧
    (∀ d id, id ∉ queue →
      processQueue slides queue processing ≠ .trigger d id) := by
  refine ⟨?_, ?_, ?_, ?_, ?_, ?_, ?_⟩
  · intro ha
    simp [processQueue, ha]
  · by_cases ha : anyLoading slides <;> simp [processQueue, ha]
  · intro id rest ha hq hfind
    subst hq
    simp [processQueue, ha, hfind]
  · intro id rest s ha hq hfind hsucc
    subst hq
    simp [processQueue, ha, hfind, hsucc]
  · intro id rest s ha hq hfind hsucc hpmem
    subst hq
    simp [processQueue, ha, hfind, hsucc, hpmem, analysisDelayMs]
  · intro d id h
    obtain ⟨-, hhead, hd, -⟩ := processQueue_trigger_inv _ _ _ _ _ h
    exact ⟨hhead, by simpa [analysisDelayMs] using hd⟩
  · intro d id hnot h
    obtain ⟨-, hhead, -, -⟩ := processQueue_trigger_inv _ _ _ _ _ h
    cases queue with
    | nil => simp at hhead
    | cons q0 rest =>
      simp only [List.head?_cons, Option.some.injEq] at hhead
      subst hhead
      exact hnot (List.mem_cons_self _ _)

/-- C5 witness: the spec scenario — three IDLE slides with slides 2 and 3
enqueued triggers slide 2 first after the 1000 ms delay; and an ERROR slide
sitting at the head is retried. -/
theorem C5_queue_admission_witness :
    processQueue [mkSlide "p1" 1 .IDLE, mkSlide "p2" 2 .IDLE,
        mkSlide "p3" 3 .IDLE] ["p2", "p3"] [] = .trigger 1000 "p2" ∧
    processQueue [mkSlide "p1" 1 .ERROR] ["p1"] [] = .trigger 1000 "p1" := by
  constructor
  · exact (C5_queue_admission [mkSlide "p1" 1 .IDLE, mkSlide "p2" 2 .IDLE,
        mkSlide "p3" 3 .IDLE] ["p2", "p3"] []).2.2.2.2.1 "p2" ["p3"]
      (mkSlide "p2" 2 .IDLE) (by decide) rfl (by decide) (by decide)
      (by decide)
  · exact (C5_queue_admission [mkSlide "p1" 1 .ERROR] ["p1"]
        []).2.2.2.2.1 "p1" [] (mkSlide "p1" 1 .ERROR) (by decide) rfl
      (by decide) (by decide) (by decide)

theorem applyBurst_last (st : SaveState) (muts : List (List Slide × Nat))
    (m : List Slide × Nat) (hlast : muts.getLast? = some m) :
    (applyBurst st muts).presentation =
      { st.presentation with slides := m.1, lastModified := m.2 } ∧
    (applyBurst st muts).pendingWrite =
      some { st.presentation with slides := m.1, lastModified := m.2 } := by
  induction muts generalizing st with
  | nil => simp at hlast
  | cons m0 rest ih =>
    cases rest with
    | nil =>
      simp only [List.getLast?_singleton, Option.some.injEq] at hlast
      subst hlast
      exact ⟨rfl, rfl⟩
    | cons m1 rest' =>
      have hlast' : (m1 :: rest').getLast? = some m := by
        rw [List.getLast?_cons_cons] at hlast
        exact hlast
      have hrec := ih (handleSave st m0.1 m0.2) hlast'
      have hstep : applyBurst st (m0 :: m1 :: rest') =
          applyBurst (handleSave st m0.1 m0.2) (m1 :: rest') := rfl
      rw [hstep, hrec.1, hrec.2]
      exact ⟨rfl, rfl⟩

/-- C7: after a burst of N slide-array mutations all arriving before the
pending debounce timer fires (each handleSave cancels and re-arms the single
timer), exactly one durable write occurs when the timer finally fires, and
the snapshot written is the presentation after the last mutation; the
in-memory presentation also reflects the last mutation immediately, and a
further timer expiry writes nothing, so intermediate snapshots are dropped. -/
theorem C7_debounced_persistence (st : SaveState)
    (muts : List (List Slide × Nat)) (m : List Slide × Nat)
    (hlast : muts.getLast? = some m) :
    (timerFire (applyBurst st muts)).2 =
      some { st.presentation with slides := m.1, lastModified := m.2 } ∧
    (applyBurst st muts).presentation =
      { st.presentation with slides := m.1, lastModified := m.2 } ∧
    (timerFire (timerFire (applyBurst st muts)).1).2 = none := by
  obtain ⟨hpres, hpend⟩ := applyBurst_last st muts m hlast
  refine ⟨?_, hpres, ?_⟩
  · simp [timerFire, hpend]
  · simp [timerFire, hpend]

/-- C7 witness: a two-mutation burst writes once, with the second snapshot. -/
theorem C7_debounced_persistence_witness :
    (timerFire (applyBurst ⟨⟨"t", [], 0⟩, none, false⟩
        [([mkSlide "d1" 1 .IDLE], 3), ([mkSlide "d1" 1 .SUCCESS], 7)])).2 =
      some ⟨"t", [mkSlide "d1" 1 .SUCCESS], 7⟩ := by
  have h := C7_debounced_persistence ⟨⟨"t", [], 0⟩, none, false⟩
    [([mkSlide "d1" 1 .IDLE], 3), ([mkSlide "d1" 1 .SUCCESS], 7)]
    ([mkSlide "d1" 1 .SUCCESS], 7) (by decide)
  exact h.1

end SlideExplainer
